import Mathlib

/-!
Verification of the statistical significance engine of `ABTestAnalyzer`
(`src/utils.py`).

The engine is a stateless library of numeric functions on success/total
counts.  Counts are modelled as `ℕ`, exact arithmetic on proportions as `ℚ`,
and the transcendental parts (normal quantile, square root, chi-square tail
probability) as `ℝ`.  The fallible call to `scipy.stats.chi2_contingency`
(which raises `ValueError` on tables it rejects) is modelled with `Option`:
`none` stands for a raised exception.
-/

open MeasureTheory Set

/-- `calculate_efficiency_rate(completed_tasks, total_time)` from
`src/utils.py`: `completed_tasks / total_time` when `total_time > 0`,
else `0`. -/
def calculate_efficiency_rate (completed_tasks total_time : ℚ) : ℚ :=
  if 0 < total_time then completed_tasks / total_time else 0

/-- `calculate_accuracy_rate(correct_items, total_items)` from `src/utils.py`:
`correct_items / total_items` when `total_items > 0`, else `0`. -/
def calculate_accuracy_rate (correct_items total_items : ℕ) : ℚ :=
  if 0 < total_items then (correct_items : ℚ) / total_items else 0

/-- `calculate_utilization_rate(used_capacity, total_capacity)` from
`src/utils.py`: `used_capacity / total_capacity` when `total_capacity > 0`,
else `0`. -/
def calculate_utilization_rate (used_capacity total_capacity : ℕ) : ℚ :=
  if 0 < total_capacity then (used_capacity : ℚ) / total_capacity else 0

/-- `get_relative_improvement(control_rate, test_rate)` from `src/utils.py`.
Python returns `float('inf')` when the control rate is zero and the test rate
is positive; the infinite value is modelled as `⊤` in `WithTop ℚ`. -/
def get_relative_improvement (control_rate test_rate : ℚ) : WithTop ℚ :=
  if control_rate = 0 then (if 0 < test_rate then ⊤ else 0)
  else (((test_rate - control_rate) / control_rate) * 100 : ℚ)

/-- `numpy.sign` on `ℚ`, used by scipy's Yates continuity correction. -/
def npSign (x : ℚ) : ℚ :=
  if 0 < x then 1 else if x < 0 then -1 else 0

/-- One cell's contribution to scipy's continuity-corrected Pearson
statistic: the observed value is moved toward the expected value by
`min 0.5 |expected - observed|` (scipy caps the Yates shift at the
observed/expected gap), then `(observed - expected)² / expected` is taken. -/
def yatesTerm (o e : ℚ) : ℚ :=
  ((o + min (1/2) |e - o| * npSign (e - o)) - e) ^ 2 / e

/-- An expected cell frequency of a contingency table: row total times
column total over grand total, as computed by `scipy.stats.contingency`. -/
def expectedCell (r c N : ℚ) : ℚ := r * c / N

/-- Model of `scipy.stats.chi2_contingency` on the 2×2 observed table
`[[o11, o12], [o21, o22]]`, restricted to the chi-square statistic it
returns.  scipy raises `ValueError` (modelled as `none`) when the table has a
negative entry or when some expected frequency is zero.  Otherwise, since the
table is 2×2 the test has one degree of freedom, so with the default
`correction=True` scipy applies Yates' continuity correction to each cell and
returns the Pearson statistic `Σ (observed - expected)² / expected`. -/
def chi2_contingency_stat (o11 o12 o21 o22 : ℚ) : Option ℚ :=
  if o11 < 0 ∨ o12 < 0 ∨ o21 < 0 ∨ o22 < 0 then none
  else if expectedCell (o11 + o12) (o11 + o21) (o11 + o12 + (o21 + o22)) = 0 ∨
      expectedCell (o11 + o12) (o12 + o22) (o11 + o12 + (o21 + o22)) = 0 ∨
      expectedCell (o21 + o22) (o11 + o21) (o11 + o12 + (o21 + o22)) = 0 ∨
      expectedCell (o21 + o22) (o12 + o22) (o11 + o12 + (o21 + o22)) = 0 then none
  else some
    (yatesTerm o11 (expectedCell (o11 + o12) (o11 + o21) (o11 + o12 + (o21 + o22))) +
     yatesTerm o12 (expectedCell (o11 + o12) (o12 + o22) (o11 + o12 + (o21 + o22))) +
     yatesTerm o21 (expectedCell (o21 + o22) (o11 + o21) (o11 + o12 + (o21 + o22))) +
     yatesTerm o22 (expectedCell (o21 + o22) (o12 + o22) (o11 + o12 + (o21 + o22))))

/-- One cell of the textbook closed form of the Yates-corrected Pearson
statistic, `(max (|O - E| - 1/2) 0)² / E`, written from the spec's
description of the conventional continuity-corrected chi-square test. -/
def yatesTermSpec (o e : ℚ) : ℚ :=
  (max (|o - e| - 1/2) 0) ^ 2 / e

/-- The spec's chi-square statistic for the table
`[[successA, totalA - successA], [successB, totalB - successB]]`:
Pearson's statistic with Yates' continuity correction in its textbook closed
form, with expected frequencies `row total × column total / grand total`. -/
def yatesChiSquareSpec (a A b B : ℕ) : ℚ :=
  yatesTermSpec (a : ℚ) ((A : ℚ) * ((a : ℚ) + (b : ℚ)) / ((A : ℚ) + (B : ℚ))) +
  yatesTermSpec ((A : ℚ) - (a : ℚ))
    ((A : ℚ) * ((A : ℚ) + (B : ℚ) - ((a : ℚ) + (b : ℚ))) / ((A : ℚ) + (B : ℚ))) +
  yatesTermSpec (b : ℚ) ((B : ℚ) * ((a : ℚ) + (b : ℚ)) / ((A : ℚ) + (B : ℚ))) +
  yatesTermSpec ((B : ℚ) - (b : ℚ))
    ((B : ℚ) * ((A : ℚ) + (B : ℚ) - ((a : ℚ) + (b : ℚ))) / ((A : ℚ) + (B : ℚ)))

/-- The standard normal density `exp (-t² / 2) / sqrt (2 π)`. -/
noncomputable def gaussianDensity (t : ℝ) : ℝ :=
  Real.exp (-t ^ 2 / 2) / Real.sqrt (2 * Real.pi)

/-- The standard normal cumulative distribution function. -/
noncomputable def normCdf (x : ℝ) : ℝ :=
  ∫ t in Iic x, gaussianDensity t

/-- `scipy.stats.norm.ppf`, the standard normal quantile function: the
generalized inverse of `normCdf`. -/
noncomputable def norm_ppf (q : ℝ) : ℝ :=
  sInf {x : ℝ | q ≤ normCdf x}

/-- `calculate_confidence_interval(successes, total, confidence)` from
`src/utils.py` (the Python default for `confidence` is `0.95`): the Wald
normal-approximation interval for a binomial proportion, clamped to `[0, 1]`,
with the sentinel `(0, 0)` when `total == 0`. -/
noncomputable def calculate_confidence_interval
    (successes total : ℕ) (confidence : ℝ) : ℝ × ℝ :=
  if total = 0 then (0, 0)
  else
    let p : ℝ := (successes : ℝ) / (total : ℝ)
    let z : ℝ := norm_ppf ((1 + confidence) / 2)
    let se : ℝ := Real.sqrt (p * (1 - p) / (total : ℝ))
    (max 0 (p - z * se), min 1 (p + z * se))

/-- The survival function of the chi-square distribution with one degree of
freedom (upper tail probability of its density), which scipy uses to turn the
statistic of a 2×2 table into the two-sided p-value. -/
noncomputable def chi2_sf (x : ℝ) : ℝ :=
  ∫ t in Ioi x,
    if 0 < t then Real.exp (-t / 2) / Real.sqrt (2 * Real.pi * t) else 0

/-- Model of `scipy.stats.chi2_contingency(...)[:2]` on a 2×2 observed table:
the chi-square statistic together with the p-value obtained from the
chi-square distribution with one degree of freedom; `none` when scipy raises. -/
noncomputable def chi2_contingency (o11 o12 o21 o22 : ℚ) : Option (ℚ × ℝ) :=
  (chi2_contingency_stat o11 o12 o21 o22).map fun c => (c, chi2_sf (c : ℝ))

/-- `calculate_statistical_significance(control_success, control_total,
test_success, test_total)` from `src/utils.py`: short-circuits to
`(0, 1.0)` when either total is zero, otherwise builds the contingency table
`[[control_success, control_total - control_success],
[test_success, test_total - test_success]]` and hands it to
`scipy.stats.chi2_contingency`, keeping the first two components of the
result.  A `ValueError` raised by scipy is modelled as `none`. -/
noncomputable def calculate_statistical_significance
    (control_success control_total test_success test_total : ℕ) : Option (ℚ × ℝ) :=
  if control_total = 0 ∨ test_total = 0 then some (0, 1)
  else chi2_contingency (control_success : ℚ)
    ((control_total : ℚ) - (control_success : ℚ))
    (test_success : ℚ) ((test_total : ℚ) - (test_success : ℚ))

/-! Helper lemmas about the standard normal distribution, used to show that
the `z` value computed by `calculate_confidence_interval` is nonnegative for
confidence levels in `(0, 1)`. -/

lemma gaussianDensity_nonneg (t : ℝ) : 0 ≤ gaussianDensity t :=
  div_nonneg (Real.exp_pos _).le (Real.sqrt_nonneg _)

lemma gaussianDensity_neg (t : ℝ) : gaussianDensity (-t) = gaussianDensity t := by
  simp [gaussianDensity, neg_sq]

lemma gaussianDensity_eq : gaussianDensity =
    fun t : ℝ => Real.exp (-(1/2 : ℝ) * t ^ 2) / Real.sqrt (2 * Real.pi) := by
  funext t
  rw [gaussianDensity, show -t ^ 2 / 2 = -(1/2 : ℝ) * t ^ 2 by ring]

lemma integrable_gaussianDensity : Integrable gaussianDensity := by
  have h : Integrable fun t : ℝ => Real.exp (-(1/2 : ℝ) * t ^ 2) :=
    integrable_exp_neg_mul_sq (by norm_num)
  rw [gaussianDensity_eq]
  exact h.div_const _

lemma normCdf_mono {x y : ℝ} (h : x ≤ y) : normCdf x ≤ normCdf y := by
  refine setIntegral_mono_set integrable_gaussianDensity.integrableOn ?_ ?_
  · exact Filter.Eventually.of_forall gaussianDensity_nonneg
  · exact HasSubset.Subset.eventuallyLE (Iic_subset_Iic.mpr h)

lemma integral_gaussianDensity : ∫ t, gaussianDensity t = 1 := by
  have h1 : ∫ t, gaussianDensity t = (∫ t : ℝ, Real.exp (-(1/2 : ℝ) * t ^ 2)) / Real.sqrt (2 * Real.pi) := by
    rw [← integral_div, gaussianDensity_eq]
  rw [h1, integral_gaussian, show Real.pi / (1/2 : ℝ) = 2 * Real.pi by ring]
  exact div_self (Real.sqrt_ne_zero'.mpr (by positivity))

lemma normCdf_zero : normCdf 0 = 1/2 := by
  have hIic : IntegrableOn gaussianDensity (Iic 0) :=
    integrable_gaussianDensity.integrableOn
  have hIoi : IntegrableOn gaussianDensity (Ioi 0) :=
    integrable_gaussianDensity.integrableOn
  have hsym : (∫ t in Iic (0 : ℝ), gaussianDensity t) =
      ∫ t in Ioi (0 : ℝ), gaussianDensity t := by
    have h := integral_comp_neg_Iic (0 : ℝ) gaussianDensity
    simp only [gaussianDensity_neg, neg_zero] at h
    exact h
  have hsum := intervalIntegral.integral_Iic_add_Ioi hIic hIoi
  rw [integral_gaussianDensity] at hsum
  rw [normCdf]
  rw [← hsym] at hsum
  linarith

lemma norm_ppf_nonneg {q : ℝ} (hq : 1/2 < q) : 0 ≤ norm_ppf q := by
  refine Real.sInf_nonneg ?_
  intro x hx
  by_contra hneg
  push_neg at hneg
  have hmono : normCdf x ≤ normCdf 0 := normCdf_mono hneg.le
  rw [normCdf_zero] at hmono
  exact absurd (le_trans hx hmono) (not_le.mpr hq)

/-! Helper lemmas about the chi-square statistic. -/

/-- scipy's capped Yates adjustment of a cell produces exactly the textbook
clipped continuity-corrected contribution. -/
lemma yatesTerm_eq (o e : ℚ) : yatesTerm o e = yatesTermSpec o e := by
  rw [yatesTerm, yatesTermSpec, npSign, abs_sub_comm o e]
  rcases lt_trichotomy (e - o) 0 with h | h | h
  · rw [if_neg (by linarith), if_pos h, abs_of_neg h]
    rcases le_total (1/2 : ℚ) (-(e - o)) with h2 | h2
    · rw [min_eq_left h2, max_eq_left (by linarith)]
      ring
    · rw [min_eq_right h2, max_eq_right (by linarith)]
      have hoe : o + -(e - o) * -1 - e = 0 := by ring
      rw [hoe]
  · rw [if_neg (by linarith), if_neg (by linarith), h, abs_zero,
      max_eq_right (by norm_num : (0 : ℚ) - 1/2 ≤ 0)]
    have hoe : o = e := by linarith
    rw [hoe]
    ring
  · rw [if_pos h, abs_of_pos h]
    rcases le_total (1/2 : ℚ) (e - o) with h2 | h2
    · rw [min_eq_left h2, max_eq_left (by linarith)]
      ring
    · rw [min_eq_right h2, max_eq_right (by linarith)]
      have hoe : o + (e - o) * 1 - e = 0 := by ring
      rw [hoe]

/-- The scipy chi-square statistic of a 2×2 table is unchanged when the two
rows are exchanged. -/
lemma chi2_contingency_stat_swap (o11 o12 o21 o22 : ℚ) :
    chi2_contingency_stat o21 o22 o11 o12 = chi2_contingency_stat o11 o12 o21 o22 := by
  unfold chi2_contingency_stat
  rw [show o21 + o22 + (o11 + o12) = o11 + o12 + (o21 + o22) by ring,
    show o21 + o11 = o11 + o21 by ring, show o22 + o12 = o12 + o22 by ring]
  refine if_congr (by tauto) rfl (if_congr (by tauto) rfl (congrArg some (by ring)))

lemma expectedCell_ne_zero {r c N : ℚ} (hr : r ≠ 0) (hc : c ≠ 0) (hN : N ≠ 0) :
    expectedCell r c N ≠ 0 :=
  div_ne_zero (mul_ne_zero hr hc) hN

/-- On an in-contract table whose success column is neither all-zero nor
all-total, the scipy model accepts the table and returns the textbook
Yates-corrected Pearson statistic. -/
lemma chi2_contingency_stat_eq_spec (a A b B : ℕ) (ha : a ≤ A) (hb : b ≤ B)
    (hA : 0 < A) (hB : 0 < B) (hlo : 0 < a + b) (hhi : a + b < A + B) :
    chi2_contingency_stat (a : ℚ) ((A : ℚ) - (a : ℚ)) (b : ℚ) ((B : ℚ) - (b : ℚ)) =
      some (yatesChiSquareSpec a A b B) := by
  have hAq : (0 : ℚ) < (A : ℚ) := by exact_mod_cast hA
  have hBq : (0 : ℚ) < (B : ℚ) := by exact_mod_cast hB
  have hloq : (0 : ℚ) < (a : ℚ) + (b : ℚ) := by exact_mod_cast hlo
  have hhiq : (a : ℚ) + (b : ℚ) < (A : ℚ) + (B : ℚ) := by exact_mod_cast hhi
  have hNq : (0 : ℚ) < (A : ℚ) + (B : ℚ) := by linarith
  have hc2q : (0 : ℚ) < (A : ℚ) + (B : ℚ) - ((a : ℚ) + (b : ℚ)) := by linarith
  unfold chi2_contingency_stat
  rw [show (a : ℚ) + ((A : ℚ) - (a : ℚ)) = (A : ℚ) by ring,
    show (b : ℚ) + ((B : ℚ) - (b : ℚ)) = (B : ℚ) by ring,
    show ((A : ℚ) - (a : ℚ)) + ((B : ℚ) - (b : ℚ)) =
      (A : ℚ) + (B : ℚ) - ((a : ℚ) + (b : ℚ)) by ring]
  rw [if_neg (by
    push_neg
    exact ⟨Nat.cast_nonneg a, sub_nonneg.mpr (by exact_mod_cast ha),
      Nat.cast_nonneg b, sub_nonneg.mpr (by exact_mod_cast hb)⟩)]
  rw [if_neg (by
    push_neg
    exact ⟨expectedCell_ne_zero hAq.ne' hloq.ne' hNq.ne',
      expectedCell_ne_zero hAq.ne' hc2q.ne' hNq.ne',
      expectedCell_ne_zero hBq.ne' hloq.ne' hNq.ne',
      expectedCell_ne_zero hBq.ne' hc2q.ne' hNq.ne'⟩)]
  rw [yatesChiSquareSpec]
  simp only [yatesTerm_eq, expectedCell]

/-- On an in-contract input with both totals positive and a success column
that is neither all-zero nor all-total, `calculate_statistical_significance`
returns the textbook Yates chi-square statistic of the table together with
the chi-square(1 dof) p-value. -/
lemma sig_eq_spec (a A b B : ℕ) (ha : a ≤ A) (hb : b ≤ B) (hA : 0 < A)
    (hB : 0 < B) (hlo : 0 < a + b) (hhi : a + b < A + B) :
    calculate_statistical_significance a A b B =
      some (yatesChiSquareSpec a A b B, chi2_sf ((yatesChiSquareSpec a A b B : ℚ) : ℝ)) := by
  unfold calculate_statistical_significance chi2_contingency
  rw [if_neg (by push_neg; exact ⟨hA.ne', hB.ne'⟩),
    chi2_contingency_stat_eq_spec a A b B ha hb hA hB hlo hhi, Option.map_some']

/-- C1 (counterexample): with two successes columns that are all zero and
both totals positive, `calculate_statistical_significance(0, 1, 0, 1)` does
not return the pinned sentinel `(0, 1.0)` — the expected-frequency table has
a zero entry, so the underlying chi-square routine raises (`none`). -/
theorem sig_all_zero_columns_raises :
    calculate_statistical_significance 0 1 0 1 = none := by
  unfold calculate_statistical_significance chi2_contingency
  rw [if_neg (by norm_num)]
  have h : chi2_contingency_stat ((0 : ℕ) : ℚ) (((1 : ℕ) : ℚ) - ((0 : ℕ) : ℚ))
      ((0 : ℕ) : ℚ) (((1 : ℕ) : ℚ) - ((0 : ℕ) : ℚ)) = none := by
    norm_num [chi2_contingency_stat, expectedCell]
  rw [h]
  rfl

/-- C1 (amended): every degenerate input of the four engine functions maps
to its sentinel (zero totals give rate `0`, interval `(0, 0)` and
significance `(0, 1.0)`; a zero control rate gives improvement `⊤` or `0`),
and `calculate_statistical_significance` returns a value on every in-contract
input whose success column is neither all-zero nor all-total; in the
remaining case the chi-square routine rejects the table. -/
theorem engine_totality_with_chi2_caveat (s a A b B : ℕ) (conf : ℝ) (q : ℚ) :
    calculate_accuracy_rate s 0 = 0 ∧
    calculate_utilization_rate s 0 = 0 ∧
    calculate_confidence_interval s 0 conf = (0, 0) ∧
    (0 < q → get_relative_improvement 0 q = ⊤) ∧
    get_relative_improvement 0 0 = 0 ∧
    (A = 0 ∨ B = 0 → calculate_statistical_significance a A b B = some (0, 1)) ∧
    (a ≤ A → b ≤ B → 0 < a + b → a + b < A + B →
      (calculate_statistical_significance a A b B).isSome = true) := by
  refine ⟨by simp [calculate_accuracy_rate], by simp [calculate_utilization_rate],
    by simp [calculate_confidence_interval],
    fun hq => by simp [get_relative_improvement, hq],
    by simp [get_relative_improvement],
    fun h => by rcases h with h | h <;> subst h <;>
      simp [calculate_statistical_significance],
    fun ha hb hlo hhi => ?_⟩
  by_cases hAB : A = 0 ∨ B = 0
  · rcases hAB with h | h <;> subst h <;> simp [calculate_statistical_significance]
  · push_neg at hAB
    rw [sig_eq_spec a A b B ha hb (Nat.pos_of_ne_zero hAB.1)
      (Nat.pos_of_ne_zero hAB.2) hlo hhi]
    rfl

/-- C1 (witness): concrete instances of the amended claim. -/
theorem engine_totality_witness :
    get_relative_improvement 0 2 = ⊤ ∧
    calculate_statistical_significance 4 0 5 7 = some (0, 1) ∧
    (calculate_statistical_significance 1 2 1 2).isSome = true :=
  ⟨(engine_totality_with_chi2_caveat 3 1 2 1 2 0 2).2.2.2.1 (by norm_num),
   (engine_totality_with_chi2_caveat 3 4 0 5 7 0 2).2.2.2.2.2.1 (Or.inl rfl),
   (engine_totality_with_chi2_caveat 3 1 2 1 2 0 2).2.2.2.2.2.2
     (by norm_num) (by norm_num) (by norm_num) (by norm_num)⟩

/-- C2 (counterexample): on the in-contract input `(1, 1, 1, 1)` (both
totals positive), the code does not return the chi-square statistic and
p-value: the failure column of the table `[[1, 0], [1, 0]]` makes an expected
frequency zero, so the chi-square routine raises (`none`). -/
theorem sig_all_total_columns_raises :
    calculate_statistical_significance 1 1 1 1 = none := by
  unfold calculate_statistical_significance chi2_contingency
  rw [if_neg (by norm_num)]
  have h : chi2_contingency_stat ((1 : ℕ) : ℚ) (((1 : ℕ) : ℚ) - ((1 : ℕ) : ℚ))
      ((1 : ℕ) : ℚ) (((1 : ℕ) : ℚ) - ((1 : ℕ) : ℚ)) = none := by
    norm_num [chi2_contingency_stat, expectedCell]
  rw [h]
  rfl

/-- C2 (amended): for in-contract counts with both totals positive and a
success column that is neither all-zero nor all-total (so no expected
frequency is zero), `calculate_statistical_significance` returns Pearson's
chi-square statistic with Yates' continuity correction on the contingency
table, together with the two-sided p-value from the chi-square distribution
with one degree of freedom. -/
theorem sig_eq_textbook_yates (a A b B : ℕ) (ha : a ≤ A) (hb : b ≤ B)
    (hA : 0 < A) (hB : 0 < B) (hlo : 0 < a + b) (hhi : a + b < A + B) :
    calculate_statistical_significance a A b B =
      some (yatesChiSquareSpec a A b B,
        chi2_sf ((yatesChiSquareSpec a A b B : ℚ) : ℝ)) :=
  sig_eq_spec a A b B ha hb hA hB hlo hhi

/-- C2 (witness): the amended claim at the concrete input `(1, 2, 1, 3)`. -/
theorem sig_eq_textbook_yates_witness :
    calculate_statistical_significance 1 2 1 3 =
      some (yatesChiSquareSpec 1 2 1 3,
        chi2_sf ((yatesChiSquareSpec 1 2 1 3 : ℚ) : ℝ)) :=
  sig_eq_textbook_yates 1 2 1 3 (by norm_num) (by norm_num) (by norm_num)
    (by norm_num) (by norm_num) (by norm_num)

/-- C3: for every in-contract count pair (the total may be zero) and every
confidence level in `(0, 1)`, `calculate_confidence_interval` returns a pair
`(lower, upper)` with `0 ≤ lower ≤ upper ≤ 1`. -/
theorem ci_bounds (s t : ℕ) (conf : ℝ) (hs : s ≤ t) (hc0 : 0 < conf)
    (hc1 : conf < 1) :
    0 ≤ (calculate_confidence_interval s t conf).1 ∧
    (calculate_confidence_interval s t conf).1 ≤
      (calculate_confidence_interval s t conf).2 ∧
    (calculate_confidence_interval s t conf).2 ≤ 1 := by
  by_cases ht : t = 0
  · subst ht
    norm_num [calculate_confidence_interval]
  · simp only [calculate_confidence_interval, if_neg ht]
    set p := (s : ℝ) / (t : ℝ) with hpdef
    set z := norm_ppf ((1 + conf) / 2) with hzdef
    set se := Real.sqrt (p * (1 - p) / (t : ℝ)) with hsedef
    have hp0 : 0 ≤ p := div_nonneg (Nat.cast_nonneg s) (Nat.cast_nonneg t)
    have hp1 : p ≤ 1 := div_le_one_of_le₀ (Nat.cast_le.mpr hs) (Nat.cast_nonneg t)
    have hz : 0 ≤ z := norm_ppf_nonneg (by linarith)
    have hse : 0 ≤ se := Real.sqrt_nonneg _
    have hzse : 0 ≤ z * se := mul_nonneg hz hse
    exact ⟨le_max_left _ _,
      le_min (max_le (by norm_num) (by linarith))
        (max_le (by linarith) (by linarith)),
      min_le_left _ _⟩

/-- C3 (witness): the bounds at the concrete input `(1, 3, 1/2)`. -/
theorem ci_bounds_witness :
    0 ≤ (calculate_confidence_interval 1 3 (1/2)).1 ∧
    (calculate_confidence_interval 1 3 (1/2)).1 ≤
      (calculate_confidence_interval 1 3 (1/2)).2 ∧
    (calculate_confidence_interval 1 3 (1/2)).2 ≤ 1 :=
  ci_bounds 1 3 (1/2) (by norm_num) (by norm_num) (by norm_num)

/-- C4: `get_relative_improvement` returns
`((test_rate - control_rate) / control_rate) * 100` for a nonzero control
rate, `⊤` (Python `float('inf')`) for a zero control rate and a positive test
rate, and `0` for both rates zero; in particular at `(0.1, 0.1)`, `(0, 0.1)`
and `(0, 0)` it returns `0`, `⊤` and `0`. -/
theorem relative_improvement_spec (c q : ℚ) :
    (c ≠ 0 → get_relative_improvement c q = (((q - c) / c) * 100 : ℚ)) ∧
    (0 < q → get_relative_improvement 0 q = ⊤) ∧
    get_relative_improvement 0 0 = 0 ∧
    get_relative_improvement (1/10) (1/10) = 0 ∧
    get_relative_improvement 0 (1/10) = ⊤ := by
  refine ⟨fun hc => by simp [get_relative_improvement, hc],
    fun hq => by simp [get_relative_improvement, hq],
    by simp [get_relative_improvement], ?_, ?_⟩
  · norm_num [get_relative_improvement]
  · norm_num [get_relative_improvement]

/-- C4 (witness): the conditional clauses at concrete inputs. -/
theorem relative_improvement_spec_witness :
    get_relative_improvement 2 3 = (((3 - 2) / 2) * 100 : ℚ) ∧
    get_relative_improvement 0 5 = ⊤ :=
  ⟨(relative_improvement_spec 2 3).1 (by norm_num),
   (relative_improvement_spec 0 5).2.1 (by norm_num)⟩

/-- C5: both rate functions return `successes / total` for a positive total
and `0` for a zero total, hence lie in `[0, 1]` on in-contract inputs, and
`rate(0, 0) = 0`. -/
theorem rate_spec (s t : ℕ) :
    (0 < t → calculate_accuracy_rate s t = (s : ℚ) / t ∧
      calculate_utilization_rate s t = (s : ℚ) / t) ∧
    calculate_accuracy_rate s 0 = 0 ∧
    calculate_utilization_rate s 0 = 0 ∧
    (0 < t → s ≤ t →
      0 ≤ calculate_accuracy_rate s t ∧ calculate_accuracy_rate s t ≤ 1 ∧
      0 ≤ calculate_utilization_rate s t ∧
        calculate_utilization_rate s t ≤ 1) ∧
    calculate_accuracy_rate 0 0 = 0 := by
  have h0 : (0 : ℚ) ≤ (s : ℚ) / (t : ℚ) :=
    div_nonneg (Nat.cast_nonneg s) (Nat.cast_nonneg t)
  refine ⟨fun ht => ⟨by simp [calculate_accuracy_rate, ht],
      by simp [calculate_utilization_rate, ht]⟩,
    by simp [calculate_accuracy_rate], by simp [calculate_utilization_rate],
    fun ht hs => ?_, by simp [calculate_accuracy_rate]⟩
  have h1 : (s : ℚ) / (t : ℚ) ≤ 1 :=
    div_le_one_of_le₀ (Nat.cast_le.mpr hs) (Nat.cast_nonneg t)
  simp only [calculate_accuracy_rate, calculate_utilization_rate, if_pos ht]
  exact ⟨h0, h1, h0, h1⟩

/-- C5 (witness): the rate properties at the concrete input `(3, 4)`. -/
theorem rate_spec_witness :
    calculate_accuracy_rate 3 4 = (3 : ℚ) / 4 ∧
    calculate_accuracy_rate 3 4 ≤ 1 :=
  ⟨((rate_spec 3 4).1 (by norm_num)).1,
   ((rate_spec 3 4).2.2.2.1 (by norm_num) (by norm_num)).2.1⟩

/-- C6: whenever either total is zero, `calculate_statistical_significance`
returns exactly the sentinel `(0, 1.0)`, for all counts. -/
theorem sig_zero_total_sentinel :
    (∀ a b B : ℕ, calculate_statistical_significance a 0 b B = some (0, 1)) ∧
    (∀ a A b : ℕ, calculate_statistical_significance a A b 0 = some (0, 1)) := by
  constructor <;> intro a x y <;> simp [calculate_statistical_significance]

/-- C7: for every successes count and every confidence level,
`calculate_confidence_interval` with a zero total returns exactly the
sentinel `(0, 0)`. -/
theorem ci_zero_total_sentinel (s : ℕ) (conf : ℝ) :
    calculate_confidence_interval s 0 conf = (0, 0) := by
  simp [calculate_confidence_interval]

/-- C8: swapping which group is control and which is test leaves the
chi-square statistic and the p-value unchanged. -/
theorem sig_swap_symmetric (a A b B : ℕ) (hA : 0 < A) (hB : 0 < B)
    (ha : a ≤ A) (hb : b ≤ B) :
    calculate_statistical_significance a A b B =
      calculate_statistical_significance b B a A := by
  unfold calculate_statistical_significance chi2_contingency
  rw [chi2_contingency_stat_swap]
  exact if_congr or_comm rfl rfl

/-- C8 (witness): symmetry at the concrete input `(1, 2, 2, 3)`. -/
theorem sig_swap_symmetric_witness :
    calculate_statistical_significance 1 2 2 3 =
      calculate_statistical_significance 2 3 1 2 :=
  sig_swap_symmetric 1 2 2 3 (by norm_num) (by norm_num) (by norm_num)
    (by norm_num)

/-- C9: for a fixed proportion and a fixed confidence level in `(0, 1)`, the
width of the confidence interval is non-increasing as the total grows. -/
theorem ci_width_monotone (s1 t1 s2 t2 : ℕ) (conf : ℝ) (ht1 : 0 < t1)
    (ht12 : t1 ≤ t2) (hs1 : s1 ≤ t1) (hp : (s1 : ℝ) / t1 = (s2 : ℝ) / t2)
    (hc0 : 0 < conf) (hc1 : conf < 1) :
    (calculate_confidence_interval s2 t2 conf).2 -
        (calculate_confidence_interval s2 t2 conf).1 ≤
      (calculate_confidence_interval s1 t1 conf).2 -
        (calculate_confidence_interval s1 t1 conf).1 := by
  have ht2 : 0 < t2 := lt_of_lt_of_le ht1 ht12
  have ht1q : (0 : ℝ) < (t1 : ℝ) := by exact_mod_cast ht1
  simp only [calculate_confidence_interval, if_neg ht1.ne', if_neg ht2.ne']
  rw [← hp]
  set p := (s1 : ℝ) / (t1 : ℝ) with hpdef
  set z := norm_ppf ((1 + conf) / 2) with hzdef
  have hp0 : 0 ≤ p := div_nonneg (Nat.cast_nonneg s1) (Nat.cast_nonneg t1)
  have hp1 : p ≤ 1 := div_le_one_of_le₀ (Nat.cast_le.mpr hs1) (Nat.cast_nonneg t1)
  have hz : 0 ≤ z := norm_ppf_nonneg (by linarith)
  have hnum : 0 ≤ p * (1 - p) := mul_nonneg hp0 (by linarith)
  have hfrac : p * (1 - p) / (t2 : ℝ) ≤ p * (1 - p) / (t1 : ℝ) := by
    rw [div_eq_mul_inv, div_eq_mul_inv]
    exact mul_le_mul_of_nonneg_left
      (inv_anti₀ ht1q (Nat.cast_le.mpr ht12)) hnum
  have hse : Real.sqrt (p * (1 - p) / (t2 : ℝ)) ≤
      Real.sqrt (p * (1 - p) / (t1 : ℝ)) := Real.sqrt_le_sqrt hfrac
  have hzse : z * Real.sqrt (p * (1 - p) / (t2 : ℝ)) ≤
      z * Real.sqrt (p * (1 - p) / (t1 : ℝ)) := mul_le_mul_of_nonneg_left hse hz
  have hup : min 1 (p + z * Real.sqrt (p * (1 - p) / (t2 : ℝ))) ≤
      min 1 (p + z * Real.sqrt (p * (1 - p) / (t1 : ℝ))) :=
    min_le_min le_rfl (by linarith)
  have hlow : max 0 (p - z * Real.sqrt (p * (1 - p) / (t1 : ℝ))) ≤
      max 0 (p - z * Real.sqrt (p * (1 - p) / (t2 : ℝ))) :=
    max_le_max le_rfl (by linarith)
  exact sub_le_sub hup hlow

/-- C9 (witness): widths at the proportion `1/2` for totals `2` and `4` at
confidence `0.95`. -/
theorem ci_width_monotone_witness :
    (calculate_confidence_interval 2 4 (19/20)).2 -
        (calculate_confidence_interval 2 4 (19/20)).1 ≤
      (calculate_confidence_interval 1 2 (19/20)).2 -
        (calculate_confidence_interval 1 2 (19/20)).1 :=
  ci_width_monotone 1 2 2 4 (19/20) (by norm_num) (by norm_num) (by norm_num)
    (by norm_num) (by norm_num) (by norm_num)

/-- C10: for a positive total, the interval at the extreme proportions
degenerates to a point: `(0, 0)` for zero successes (the Wald standard error
vanishes at `p = 0`), `(1, 1)` for all successes, and the zero-success output
coincides with the zero-total sentinel. -/
theorem ci_extreme_degenerate (t : ℕ) (conf : ℝ) (ht : 0 < t) :
    calculate_confidence_interval 0 t conf = (0, 0) ∧
    calculate_confidence_interval t t conf = (1, 1) ∧
    calculate_confidence_interval 0 t conf =
      calculate_confidence_interval 0 0 conf := by
  have htq : ((t : ℝ)) ≠ 0 := Nat.cast_ne_zero.mpr ht.ne'
  have h1 : calculate_confidence_interval 0 t conf = (0, 0) := by
    simp only [calculate_confidence_interval, if_neg ht.ne']
    norm_num
  have h2 : calculate_confidence_interval t t conf = (1, 1) := by
    simp only [calculate_confidence_interval, if_neg ht.ne']
    rw [div_self htq]
    norm_num
  have h3 : calculate_confidence_interval 0 0 conf = (0, 0) := by
    simp [calculate_confidence_interval]
  exact ⟨h1, h2, h1.trans h3.symm⟩

/-- C10 (witness): the degenerate intervals at total `5`, confidence `0.95`. -/
theorem ci_extreme_degenerate_witness :
    calculate_confidence_interval 0 5 (19/20) = (0, 0) ∧
    calculate_confidence_interval 5 5 (19/20) = (1, 1) :=
  ⟨(ci_extreme_degenerate 5 (19/20) (by norm_num)).1,
   (ci_extreme_degenerate 5 (19/20) (by norm_num)).2.1⟩
